import Mathlib

/-!
Verification of the FluxStore CSV ingestion pipeline
(`ProductsService.processCSVFileWithMetrics`, `processProductsInBatches`,
`processCSVFromUpload`, `RabbitMQService.sendToCsvQueue` / `consumeCsvQueue`,
`ExchangeRatesService.getExchangeRates`), shallowly embedded in Lean.

Cells and rows are lists of characters; JavaScript `parseFloat`,
`parseInt` and `new Date(year, monthIndex, day)` are modelled exactly on
the decimal/hex and proleptic-Gregorian fragments the pipeline exercises
(the `Infinity` literal branch of `parseFloat` is not modelled: no price
cell of this format can denote it).  JavaScript numbers are modelled as
exact rationals.
-/

namespace FluxStore

/-- JavaScript whitespace characters recognised by `parseFloat`/`parseInt`
(the subset that can occur in this pipeline's cells). -/
def jsWhite (c : Char) : Bool :=
  c = ' ' ∨ c = '\t' ∨ c = '\n' ∨ c = '\r' ∨ c = '\x0b' ∨ c = '\x0c'

/-- Longest prefix of decimal digits, with the remainder. -/
def takeDigits : List Char → List Char × List Char
  | [] => ([], [])
  | c :: cs =>
    if c.isDigit then
      let r := takeDigits cs
      (c :: r.1, r.2)
    else ([], c :: cs)

/-- Value of a list of decimal digits. -/
def digitsVal (ds : List Char) : Nat :=
  ds.foldl (fun a c => 10 * a + (c.toNat - 48)) 0

/-- Exponent suffix `e`/`E`, optional sign, digits; `none` when absent or
malformed (JavaScript then stops before the `e`). -/
def expValue (cs : List Char) : Option Int :=
  match cs with
  | c :: rest =>
    if c = 'e' ∨ c = 'E' then
      let sr : Int × List Char :=
        match rest with
        | '-' :: r => (-1, r)
        | '+' :: r => (1, r)
        | r => (1, r)
      let ds := (takeDigits sr.2).1
      if ds = [] then none else some (sr.1 * (digitsVal ds : Int))
    else none
  | [] => none

/-- Significand of a JavaScript decimal literal: `digits [. digits]` or
`. digits`; returns the mantissa, the number of fractional digits, and
the remainder — the denoted value is `mantissa / 10 ^ fracLen`; `none` if
no digits at all. -/
def parseSignificand (cs : List Char) : Option ((Nat × Nat) × List Char) :=
  let r1 := takeDigits cs
  if r1.1 = [] then
    match r1.2 with
    | '.' :: r2 =>
      let r3 := takeDigits r2
      if r3.1 = [] then none
      else some ((digitsVal r3.1, r3.1.length), r3.2)
    | _ => none
  else
    match r1.2 with
    | '.' :: r2 =>
      let r3 := takeDigits r2
      some ((digitsVal r1.1 * 10 ^ r3.1.length + digitsVal r3.1, r3.1.length), r3.2)
    | _ => some ((digitsVal r1.1, 0), r1.2)

/-- JavaScript `parseFloat`: skip whitespace, optional sign, then the
longest decimal-literal prefix, the value assembled as one exact
rational; `none` models `NaN`. -/
def jsParseFloat (cs : List Char) : Option ℚ :=
  let cs1 := cs.dropWhile jsWhite
  let sc : Int × List Char :=
    match cs1 with
    | '-' :: r => (-1, r)
    | '+' :: r => (1, r)
    | r => (1, r)
  match parseSignificand sc.2 with
  | none => none
  | some mfr =>
    let e : Int :=
      (match expValue mfr.2 with
       | some ev => ev
       | none => 0) - (mfr.1.2 : Int)
    if 0 ≤ e then
      some (mkRat (sc.1 * ((mfr.1.1 * 10 ^ e.toNat : Nat) : Int)) 1)
    else
      some (mkRat (sc.1 * (mfr.1.1 : Int)) (10 ^ (-e).toNat))

def isHexDigit (c : Char) : Bool :=
  c.isDigit ∨ ('a' ≤ c ∧ c ≤ 'f') ∨ ('A' ≤ c ∧ c ≤ 'F')

def hexDigitValue (c : Char) : Nat :=
  if c.isDigit then c.toNat - 48
  else if 'a' ≤ c then c.toNat - 87
  else c.toNat - 55

/-- Longest prefix of hexadecimal digits, with the remainder. -/
def takeHex : List Char → List Char × List Char
  | [] => ([], [])
  | c :: cs =>
    if isHexDigit c then
      let r := takeHex cs
      (c :: r.1, r.2)
    else ([], c :: cs)

def hexVal (ds : List Char) : Nat :=
  ds.foldl (fun a c => 16 * a + hexDigitValue c) 0

/-- JavaScript `parseInt(s)` with no radix argument: skip whitespace,
optional sign, `0x`/`0X` switches to base 16, otherwise the longest
decimal-digit prefix in base 10; `none` models `NaN`. -/
def jsParseInt (cs : List Char) : Option Int :=
  let cs1 := cs.dropWhile jsWhite
  let sc : Int × List Char :=
    match cs1 with
    | '-' :: r => (-1, r)
    | '+' :: r => (1, r)
    | r => (1, r)
  match sc.2 with
  | '0' :: x :: r =>
    if x = 'x' ∨ x = 'X' then
      let hs := (takeHex r).1
      if hs = [] then none else some (sc.1 * (hexVal hs : Int))
    else
      let ds := (takeDigits sc.2).1
      if ds = [] then none else some (sc.1 * (digitsVal ds : Int))
  | _ =>
    let ds := (takeDigits sc.2).1
    if ds = [] then none else some (sc.1 * (digitsVal ds : Int))

/-- Remove the first occurrence of a character, as JavaScript
`String.prototype.replace` with a one-character string pattern and an
empty replacement does. -/
def removeFirst : List Char → Char → List Char
  | [], _ => []
  | c :: cs, t => if c = t then cs else c :: removeFirst cs t

/-- Split a character list at every occurrence of a separator. -/
def splitChar (sep : Char) : List Char → List (List Char)
  | [] => [[]]
  | c :: cs =>
    match splitChar sep cs with
    | [] => [[]]
    | r :: rs => if c = sep then [] :: r :: rs else (c :: r) :: rs

/-- JavaScript `String.prototype.trim` on a character list. -/
def trimChars (cs : List Char) : List Char :=
  (((cs.dropWhile jsWhite).reverse).dropWhile jsWhite).reverse

/-! ### The JavaScript `Date(year, monthIndex, day)` constructor

Proleptic-Gregorian day arithmetic (days counted from 1970-01-01), with
the ECMAScript argument normalisation: month overflow rolls years, day
overflow rolls months, and a year argument in 0..99 means 1900+year. -/

/-- Day number (epoch 1970-01-01) of the first day of month `m` (1..12)
of year `y`. -/
def daysFromCivilFirst (y m : Int) : Int :=
  let yAdj := if m ≤ 2 then y - 1 else y
  let era := Int.fdiv yAdj 400
  let yoe := yAdj - era * 400
  let mp := Int.emod (m + 9) 12
  let doy := Int.fdiv (153 * mp + 2) 5
  let doe := yoe * 365 + Int.fdiv yoe 4 - Int.fdiv yoe 100 + doy
  era * 146097 + doe - 719468

/-- ECMAScript `MakeDay(year, monthIndex, day)`: normalise the month into
a year/month pair, then add the (possibly out-of-range) day offset. -/
def makeDay (y mIdx d : Int) : Int :=
  let ym := y + Int.fdiv mIdx 12
  let mn := Int.emod mIdx 12
  daysFromCivilFirst ym (mn + 1) + (d - 1)

/-- Calendar year containing epoch day number `z`. -/
def yearFromDays (z : Int) : Int :=
  let z1 := z + 719468
  let era := Int.fdiv z1 146097
  let doe := z1 - era * 146097
  let yoe :=
    Int.fdiv (doe - Int.fdiv doe 1460 + Int.fdiv doe 36524 - Int.fdiv doe 146096) 365
  let y := yoe + era * 400
  let doy := doe - (365 * yoe + Int.fdiv yoe 4 - Int.fdiv yoe 100)
  let mp := Int.fdiv (5 * doy + 2) 153
  let m := if mp < 10 then mp + 3 else mp - 9
  if m ≤ 2 then y + 1 else y

/-- `new Date(y, mIdx, d)` as an epoch day number; `none` models an
`Invalid Date` (time value outside ±8.64e15 ms, i.e. ±1e8 days).
A year argument in 0..99 is interpreted as 1900+year. -/
def jsDateDays (y mIdx d : Int) : Option Int :=
  let yy := if 0 ≤ y ∧ y ≤ 99 then y + 1900 else y
  let days := makeDay yy mIdx d
  if days.natAbs ≤ 100000000 then some days else none

/-- `new Date(y, mIdx, d).getFullYear()`; `none` models `Invalid Date`. -/
def jsDateYear (y mIdx d : Int) : Option Int :=
  (jsDateDays y mIdx d).map yearFromDays

/-! ### The parsing & validation stage

`processCSVFileWithMetrics` pipes the byte source through `csv-parser`
configured with `separator: ';'`, fixed `headers: [name, price,
expiration]`, value trimming, and `skipLines: 1`, then validates each
emitted row in its `data` handler. -/

/-- A row as emitted by `csv-parser`: the three named cells, `none` when
the line had fewer fields (JavaScript `undefined`). -/
structure RawRow where
  name : Option (List Char)
  price : Option (List Char)
  expiration : Option (List Char)
deriving DecidableEq

/-- A falsy cell: absent (`undefined`) or the empty string. -/
def falsyCell : Option (List Char) → Bool
  | none => true
  | some cs => cs = []

/-- One line split at `;` with every value trimmed (`mapValues`), mapped
onto the fixed header triple. -/
def lineToRow (line : List Char) : RawRow :=
  let fields := (splitChar ';' line).map trimChars
  { name := fields[0]?, price := fields[1]?, expiration := fields[2]? }

/-- The stream stage: split the payload into lines, skip the header line
(`skipLines: 1`), drop blank lines (for which `csv-parser` emits no
record), and build a row per remaining line. -/
def parseCSVChars (content : List Char) : List RawRow :=
  (((splitChar '\n' content).drop 1).filter (fun l => !(l.isEmpty))).map lineToRow

def parseCSVString (content : String) : List RawRow :=
  parseCSVChars content.data

/-- The error kinds pushed onto `errors` by the row handler, in source
order of their checks. -/
inductive RowReason where
  | missingFields
  | invalidPrice
  | invalidDateNumbers
  | invalidDate
  | invalidDateFormat
deriving DecidableEq

/-- A record built for a valid row: trimmed name, parsed price, and the
expiration as the epoch day number of the constructed `Date`. -/
structure ParsedProduct where
  name : List Char
  price : ℚ
  expirationDays : Int
deriving DecidableEq

/-- Outcome of the row handler on one row. -/
inductive RowOutcome where
  | headerSkip
  | failed (reason : RowReason)
  | valid (p : ParsedProduct)
deriving DecidableEq

/-- The price parse of the row handler:
`parseFloat(data.price.replace('$', '').replace(',', '').trim())`.
Each `replace` removes only the first occurrence of its pattern. -/
def parsePriceCell (cell : List Char) : Option ℚ :=
  jsParseFloat (trimChars (removeFirst (removeFirst cell '$') ','))

/-- The body of the `data` handler for one row (both
`processCSVFileWithMetrics` and `processCSVFileFromBuffer` duplicate this
logic verbatim): skip a literal repeat of the header triple; reject empty
fields, unparsable prices, wrongly delimited dates, non-numeric date
parts, and dates whose constructed `Date` is invalid or whose
`getFullYear()` differs from the parsed year. -/
def validateRow (row : RawRow) : RowOutcome :=
  if row.name = some "name".data ∧ row.price = some "price".data ∧
      row.expiration = some "expiration".data then
    .headerSkip
  else if falsyCell row.name ∨ falsyCell row.price ∨ falsyCell row.expiration then
    .failed .missingFields
  else
    let nameC := row.name.getD []
    let priceC := row.price.getD []
    let expC := row.expiration.getD []
    match parsePriceCell priceC with
    | none => .failed .invalidPrice
    | some price =>
      match splitChar '/' expC with
      | [mS, dS, yS] =>
        match jsParseInt mS, jsParseInt dS, jsParseInt yS with
        | some m, some d, some y =>
          match jsDateDays y (m - 1) d with
          | none => .failed .invalidDate
          | some days =>
            if yearFromDays days = y then
              .valid ⟨trimChars nameC, price, days⟩
            else .failed .invalidDate
        | _, _, _ => .failed .invalidDateNumbers
      | _ => .failed .invalidDateFormat

/-- Whether the row handler accepts the row. -/
def isValidRow (row : RawRow) : Bool :=
  match validateRow row with
  | .valid _ => true
  | _ => false

/-- Whether the row is a literal repeat of the header, which the handler
skips without recording anything. -/
def isHeaderEcho (row : RawRow) : Bool :=
  match validateRow row with
  | .headerSkip => true
  | _ => false

/-! ### Currency enrichment (`ExchangeRatesService`) -/

/-- The `{date, rates}` payload cached under `exchange_rates` and
returned by the rate provider; rates are a currency → number mapping. -/
structure RatesData where
  date : String
  rates : List (String × ℚ)
deriving DecidableEq

/-- `getExchangeRates`: return the cached value when present, otherwise
consult the external provider; a provider failure propagates as the
thrown `Failed to fetch exchange rates`. -/
def getExchangeRates (cache : Option RatesData) (provider : Except Unit RatesData) :
    Except Unit RatesData :=
  match cache with
  | some r => Except.ok r
  | none => provider

/-- The fixed currency allow-list of `getSelectedCurrencies`. -/
def selectedCurrencies : List String := ["EUR", "GBP", "JPY", "CAD", "AUD", "BRL"]

/-- `getSelectedCurrencies`: keep, in allow-list order, the listed
currencies whose rate is present and truthy (a zero rate is falsy in
`if (rates[currency])` and is dropped). -/
def getSelectedCurrencies (rates : List (String × ℚ)) : List (String × ℚ) :=
  selectedCurrencies.foldr
    (fun c acc =>
      match rates.lookup c with
      | some v => if v.num = 0 then acc else (c, v) :: acc
      | none => acc)
    []

/-- A record as pushed onto `results`: the parsed row plus the run's
exchange-rate snapshot. -/
structure EnrichedProduct where
  product : ParsedProduct
  exchangeRates : RatesData
deriving DecidableEq

/-! ### The per-run accumulator of the `data` handler -/

/-- The mutable locals of `processCSVFileWithMetrics`: `lineCount`,
`successCount`, `errors` (with 1-based line numbers) and `results`. -/
structure RunState where
  lineCount : Nat
  successCount : Nat
  errors : List (Nat × RowReason)
  results : List EnrichedProduct
deriving DecidableEq

def initialRunState : RunState := ⟨0, 0, [], []⟩

/-- One `data` event: increment `lineCount`, then record the row's
outcome — a valid product (with the snapshot attached) onto `results`,
a failure onto `errors`, a header echo onto neither. -/
def stepRow (snap : RatesData) (st : RunState) (row : RawRow) : RunState :=
  let line := st.lineCount + 1
  match validateRow row with
  | .headerSkip => { st with lineCount := line }
  | .failed r =>
    { st with lineCount := line, errors := st.errors ++ [(line, r)] }
  | .valid p =>
    { st with
      lineCount := line
      successCount := st.successCount + 1
      results := st.results ++ [⟨p, snap⟩] }

/-- The whole stream of `data` events for a run. -/
def runRows (snap : RatesData) (rows : List RawRow) : RunState :=
  rows.foldl (stepRow snap) initialRunState

/-! ### Batch persistence (`processProductsInBatches`) -/

/-- The policy constant `batchSize = 1000`. -/
def batchSize : Nat := 1000

/-- `for (let i = 0; i < products.length; i += batchSize)` slicing, with
structural fuel (one unit per loop iteration suffices). -/
def toBatchesAux : Nat → List EnrichedProduct → List (List EnrichedProduct)
  | 0, _ => []
  | _, [] => []
  | fuel + 1, l => l.take batchSize :: toBatchesAux fuel (l.drop batchSize)

def toBatches (l : List EnrichedProduct) : List (List EnrichedProduct) :=
  toBatchesAux l.length l

/-- The datastore's answer to `insertMany(batch, { ordered: false })` for
a given 1-based batch number: the sibling documents actually written and
whether the call threw (unordered writes can write siblings and still
throw). -/
def InsertOracle : Type :=
  Nat → List EnrichedProduct → List EnrichedProduct × Bool

/-- The batch loop from batch number `k` on: every batch is attempted;
a throw is caught (`catch (batchError)`), logged and counted, and the
loop proceeds.  Returns the documents written and one
`(batchNumber, insertedCount, failed)` result per batch. -/
def runBatchesAux (ins : InsertOracle) :
    Nat → List (List EnrichedProduct) → List EnrichedProduct × List (Nat × Nat × Bool)
  | _, [] => ([], [])
  | k, b :: bs =>
    let r := ins k b
    let rest := runBatchesAux ins (k + 1) bs
    (r.1 ++ rest.1, (k, r.1.length, r.2) :: rest.2)

/-- `processProductsInBatches`: `deleteMany({})` clears the catalog, then
the fixed-size batches are inserted sequentially; the state of the
catalog afterwards is exactly the documents the batches wrote. -/
def processProductsInBatches (products : List EnrichedProduct) (ins : InsertOracle) :
    List EnrichedProduct × List (Nat × Nat × Bool) :=
  runBatchesAux ins 1 (toBatches products)

/-- Inserted-document count recorded for batch number `j` (0 when no such
batch ran). -/
def insertedCountAt (bres : List (Nat × Nat × Bool)) (j : Nat) : Nat :=
  match bres.find? (fun r => r.1 == j) with
  | some r => r.2.1
  | none => 0

/-! ### The full run (`processCSVFileWithMetrics`) -/

/-- How a run can reject: the only pre-stream rejection is a failed
exchange-rate fetch.  (Stream errors and the 300 s stall timeout abort a
run exogenously and are outside this model, which covers runs whose byte
source delivers.) -/
inductive PipeError where
  | enrichment
deriving DecidableEq

/-- The `{successCount, errors}` value a run resolves with. -/
structure RunSummary where
  successCount : Nat
  errors : List (Nat × RowReason)
deriving DecidableEq

instance {ε α : Type} [DecidableEq ε] [DecidableEq α] : DecidableEq (Except ε α) :=
  fun x y =>
    match x, y with
    | .ok a, .ok b =>
      if h : a = b then isTrue (h ▸ rfl)
      else isFalse (by simp only [Except.ok.injEq]; exact h)
    | .error a, .error b =>
      if h : a = b then isTrue (h ▸ rfl)
      else isFalse (by simp only [Except.error.injEq]; exact h)
    | .ok _, .error _ => isFalse (fun hc => Except.noConfusion hc)
    | .error _, .ok _ => isFalse (fun hc => Except.noConfusion hc)

/-- `processCSVFileWithMetrics` over a delivered payload: fetch the
snapshot first (rejecting the whole run on failure, before any row is
read), validate every row, and only when at least one record was built
run `processProductsInBatches` — otherwise the catalog `db` is untouched.
Returns the resolution, the catalog afterwards, and the batch results. -/
def processCSVFileWithMetrics (content : String) (cache : Option RatesData)
    (provider : Except Unit RatesData) (db : List EnrichedProduct)
    (ins : InsertOracle) :
    Except PipeError RunSummary × List EnrichedProduct × List (Nat × Nat × Bool) :=
  match getExchangeRates cache provider with
  | .error _ => (.error .enrichment, db, [])
  | .ok rd =>
    let snap : RatesData := ⟨rd.date, getSelectedCurrencies rd.rates⟩
    let st := runRows snap (parseCSVString content)
    if st.results.isEmpty then
      (.ok ⟨st.successCount, st.errors⟩, db, [])
    else
      let pr := processProductsInBatches st.results ins
      (.ok ⟨st.successCount, st.errors⟩, pr.1, pr.2)

/-- `processCSVFileFromBuffer` duplicates the row pipeline of
`processCSVFileWithMetrics` verbatim on an in-memory buffer. -/
def processCSVFileFromBuffer (content : String) (cache : Option RatesData)
    (provider : Except Unit RatesData) (db : List EnrichedProduct)
    (ins : InsertOracle) :
    Except PipeError RunSummary × List EnrichedProduct × List (Nat × Nat × Bool) :=
  processCSVFileWithMetrics content cache provider db ins

/-- A run together with the wall-clock-derived metric values it reports
(`Date.now() - startTime` readings); the resolution itself carries no
clock reading. -/
structure RunTrace where
  summary : Except PipeError RunSummary
  db : List EnrichedProduct
  fetchTimeMetric : Nat
  processingTimeMetric : Nat
deriving DecidableEq

/-- A run started at `startTime`, observing `Date.now()` as `tFetch` after
the snapshot fetch and `tEnd` at stream end. -/
def processCSVFileAt (startTime tFetch tEnd : Nat) (content : String)
    (cache : Option RatesData) (provider : Except Unit RatesData)
    (db : List EnrichedProduct) (ins : InsertOracle) : RunTrace :=
  let r := processCSVFileWithMetrics content cache provider db ins
  ⟨r.1, r.2.1, tFetch - startTime, tEnd - startTime⟩

/-- The counts the caller observes from a resolution. -/
def summaryCounts (e : Except PipeError RunSummary) : Option (Nat × Nat) :=
  (e.toOption).map (fun s => (s.successCount, s.errors.length))

/-! ### The queue client (`RabbitMQService`) and the fallback
orchestrator (`processCSVFromUpload`) -/

/-- The broker as the orchestrator observes it: whether the settled
connection attempt left `isConnected` true, and what `channel.publish`
answers when it is reached. -/
structure Broker where
  connected : Bool
  publishAccepted : Bool
deriving DecidableEq

/-- `waitForConnection`: `ensureConnected` inside a try/catch. -/
def waitForConnection (b : Broker) : Bool := b.connected

/-- The body of `sendToCsvQueue` before its catch: `ensureConnected`
throws `RabbitMQ not connected after waiting` when the connection is
down; otherwise the publish's boolean is returned. -/
def sendToCsvQueueBody (b : Broker) : Except String Bool :=
  if b.connected then Except.ok b.publishAccepted
  else Except.error "RabbitMQ not connected after waiting"

/-- `sendToCsvQueue`: the catch turns any throw into `false`, so the
method only ever answers a boolean. -/
def sendToCsvQueue (b : Broker) : Bool :=
  match sendToCsvQueueBody b with
  | .ok v => v
  | .error _ => false

/-- The `{processed, errors}` summary `processCSVFromUpload` returns. -/
structure UploadResult where
  processed : Nat
  errors : Nat
deriving DecidableEq

/-- `processCSVFromUpload`: when `waitForConnection` fails, process the
buffer synchronously; otherwise stage the payload and publish, returning
`{0, 0}` when the queue accepted it and falling back to the same
synchronous processing when `sendToCsvQueue` answered `false`.  (The
temporary-file staging is a filesystem effect with no bearing on the
returned summary and is not modelled.) -/
def processCSVFromUpload (b : Broker) (content : String)
    (cache : Option RatesData) (provider : Except Unit RatesData)
    (db : List EnrichedProduct) (ins : InsertOracle) :
    Except PipeError UploadResult × List EnrichedProduct :=
  if waitForConnection b = false then
    let r := processCSVFileFromBuffer content cache provider db ins
    (r.1.map (fun s => ⟨s.successCount, s.errors.length⟩), r.2.1)
  else if sendToCsvQueue b then
    (.ok ⟨0, 0⟩, db)
  else
    let r := processCSVFileFromBuffer content cache provider db ins
    (r.1.map (fun s => ⟨s.successCount, s.errors.length⟩), r.2.1)

/-! ### The consumer side (`consumeCsvQueue`) -/

/-- What `sendToCsvQueue` actually publishes: `{filePath, timestamp}` —
the message carries no retry counter of any kind. -/
structure QueueMessage where
  filePath : String
  timestamp : String
deriving DecidableEq

/-- The channel operation the consumer callback ends with. -/
inductive ConsumeAction where
  | ack
  | nack (multiple requeue : Bool)
deriving DecidableEq

/-- The `consumeCsvQueue` callback for one delivered message: run the
processor inside a try/catch; acknowledge on success, and on any throw
(JSON parse or handler) `nack(message, false, false)`. -/
def consumeCsvQueueOnMessage (processor : QueueMessage → Except String Unit)
    (m : QueueMessage) : ConsumeAction :=
  match processor m with
  | .ok _ => .ack
  | .error _ => .nack false false

/-- Whether a channel operation puts the message back on the queue. -/
def requeuesMessage : ConsumeAction → Bool
  | .nack _ r => r
  | .ack => false

/-! ### Definitions taken from the specification's words, for comparison
with the code (refinement claims only) -/

/-- Modelled from the spec: `Price parses as a floating-point number
after stripping a leading currency symbol and thousands separators` —
one leading `$` removed, every `,` removed. -/
def stripPriceCellSpec (cell : List Char) : List Char :=
  let noSym := match cell with
    | '$' :: r => r
    | r => r
  noSym.filter (fun c => !(c = ','))

/-- Modelled from the spec: the price parse the spec sentence describes. -/
def parsePriceCellSpec (cell : List Char) : Option ℚ :=
  jsParseFloat (stripPriceCellSpec cell)

/-- Modelled from the spec: the consumer-failure policy the spec
describes — requeue with an incremented counter while under the cap,
dead-letter beyond it. -/
inductive SpecConsumeAction where
  | ack
  | requeue (newRetryCount : Nat)
  | deadLetter
deriving DecidableEq

/-- Modelled from the spec: `On handler failure, reads/increments a retry
counter from message metadata; if under the retry cap, requeues with the
incremented counter; otherwise dead-letters`. -/
def specRetryConsumeAction (retryCap retryCount : Nat) (handlerOk : Bool) :
    SpecConsumeAction :=
  if handlerOk then .ack
  else if retryCount < retryCap then .requeue (retryCount + 1)
  else .deadLetter

/-! ### Concrete fixtures used by the theorems below -/

/-- A cached exchange-rate snapshot. -/
def snapDefault : RatesData := ⟨"2024-01-01", [("EUR", mkRat 92 100)]⟩

/-- A persisted record, standing for pre-existing catalog content. -/
def productDefault : EnrichedProduct := ⟨⟨"p".data, 1, 0⟩, snapDefault⟩

/-- A datastore that accepts every batch. -/
def insAccept : InsertOracle := fun _ b => (b, false)

/-- A datastore that throws on (and writes nothing of) batch 1 and
accepts every later batch. -/
def insFailFirst : InsertOracle := fun k b => if k = 1 then ([], true) else (b, false)

/-- The §8 scenario input. -/
def c8Content : String :=
  "name;price;expiration\nApple;$10.00;12/31/2024\n;5.00;01/01/2025\nPear;abc;02/02/2025"

/-- An input whose second data row is a literal repeat of the header. -/
def headerEchoContent : String :=
  "name;price;expiration\nname;price;expiration\nApple;$10.00;12/31/2024"

/-- An input whose only data row fails validation (unparsable price). -/
def allInvalidContent : String :=
  "name;price;expiration\nApple;abc;01/01/2025"

/-! ### Helper lemmas -/

/-- Folding the `data` handler over rows adds one success or one error
per row that is not a literal header repeat. -/
lemma foldRows_count (snap : RatesData) :
    ∀ (rows : List RawRow) (st : RunState),
      (rows.foldl (stepRow snap) st).successCount
          + (rows.foldl (stepRow snap) st).errors.length
        = st.successCount + st.errors.length
          + ((rows.filter (fun r => !(isHeaderEcho r))).length) := by
  intro rows
  induction rows with
  | nil => intro st; simp
  | cons r rows ih =>
    intro st
    rw [List.foldl_cons, ih]
    cases hv : validateRow r with
    | headerSkip =>
      simp [stepRow, hv, isHeaderEcho, List.filter_cons]
    | failed e =>
      simp [stepRow, hv, isHeaderEcho, List.filter_cons]
      omega
    | valid p =>
      simp [stepRow, hv, isHeaderEcho, List.filter_cons]
      omega

/-- When no row validates, the fold builds no record and counts no
success. -/
lemma foldRows_noValid (snap : RatesData) :
    ∀ (rows : List RawRow) (st : RunState),
      (∀ r ∈ rows, isValidRow r = false) →
      (rows.foldl (stepRow snap) st).results = st.results ∧
        (rows.foldl (stepRow snap) st).successCount = st.successCount := by
  intro rows
  induction rows with
  | nil => intro st _; exact ⟨rfl, rfl⟩
  | cons r rows ih =>
    intro st h
    have hr : isValidRow r = false := h r (List.mem_cons_self r rows)
    have hrest : ∀ x ∈ rows, isValidRow x = false :=
      fun x hx => h x (List.mem_cons_of_mem r hx)
    rw [List.foldl_cons]
    cases hv : validateRow r with
    | headerSkip =>
      have := ih (stepRow snap st r) hrest
      simpa [stepRow, hv] using this
    | failed e =>
      have := ih (stepRow snap st r) hrest
      simpa [stepRow, hv] using this
    | valid p =>
      exfalso
      simp [isValidRow, hv] at hr

/-- The batch loop emits one result per batch, failures included. -/
lemma runBatchesAux_len (ins : InsertOracle) :
    ∀ (bs : List (List EnrichedProduct)) (k : Nat),
      (runBatchesAux ins k bs).2.length = bs.length := by
  intro bs
  induction bs with
  | nil => intro k; rfl
  | cons b bs ih => intro k; simp [runBatchesAux, ih]

/-- The count recorded for batch number `j` depends only on the
datastore's answer for batch `j`. -/
lemma runBatchesAux_countAt (ins₁ ins₂ : InsertOracle) (j : Nat)
    (h : ∀ b, ins₁ j b = ins₂ j b) :
    ∀ (bs : List (List EnrichedProduct)) (k : Nat),
      insertedCountAt (runBatchesAux ins₁ k bs).2 j
        = insertedCountAt (runBatchesAux ins₂ k bs).2 j := by
  intro bs
  induction bs with
  | nil => intro k; rfl
  | cons b bs ih =>
    intro k
    by_cases hk : k = j
    · subst hk
      simp [runBatchesAux, insertedCountAt, List.find?, h b]
    · simp only [runBatchesAux, insertedCountAt]
      rw [List.find?_cons_of_neg _ (by simp [hk]), List.find?_cons_of_neg _ (by simp [hk])]
      exact ih (k + 1)

/-! ### The claims -/

/-- C1: the spec claims the validator rejects impossible calendar dates —
in particular that `02/29/2023` and `02/30/2024` are rejected — via the
computed-year round-trip.  The code's only round-trip check is on the
year, and `new Date` rolls an overflowing day into the next month of the
same year, so both rows are in fact accepted: `Date(2024, 1, 30)` is the
same day as `Date(2024, 2, 1)` (1 March 2024) and its `getFullYear()` is
still 2024. -/
theorem c1_impossible_dates_accepted :
    isValidRow ⟨some "A".data, some "1.00".data, some "02/30/2024".data⟩ = true ∧
    isValidRow ⟨some "A".data, some "1.00".data, some "02/29/2023".data⟩ = true ∧
    isValidRow ⟨some "A".data, some "1.00".data, some "02/29/2024".data⟩ = true ∧
    makeDay 2024 1 30 = makeDay 2024 2 1 ∧
    jsDateYear 2024 1 30 = some 2024 := by decide

/-- C2, counterexample: on an input whose second data row literally
repeats the header triple, that row is counted by `lineCount` but
recorded neither as a success nor as an error, so
`successCount + len(errors)` falls short of the data-row count. -/
theorem c2_counterexample :
    ¬ ((runRows snapDefault (parseCSVString headerEchoContent)).successCount
        + (runRows snapDefault (parseCSVString headerEchoContent)).errors.length
      = (parseCSVString headerEchoContent).length) := by decide

/-- C2, amended: after the parse/validation stage,
`successCount + len(errors)` equals the number of data rows that are not
literal repeats of the header triple; rows whose three cells equal
`name`/`price`/`expiration` are skipped without being counted. -/
theorem c2_success_plus_errors (snap : RatesData) (content : String) :
    (runRows snap (parseCSVString content)).successCount
        + (runRows snap (parseCSVString content)).errors.length
      = ((parseCSVString content).filter (fun r => !(isHeaderEcho r))).length := by
  have h := foldRows_count snap (parseCSVString content) initialRunState
  simpa [runRows, initialRunState] using h

/-- C3, counterexample: on the first handler failure (spec-level retry
count 0, under any positive cap, e.g. 5) the spec mandates a requeue with
counter 1, but the consumer's callback answers `nack(message, false,
false)` — it requeues nothing. -/
theorem c3_counterexample :
    consumeCsvQueueOnMessage (fun _ => Except.error "handler failure") ⟨"f.csv", "t"⟩
        = ConsumeAction.nack false false ∧
    requeuesMessage
        (consumeCsvQueueOnMessage (fun _ => Except.error "handler failure") ⟨"f.csv", "t"⟩)
      = false ∧
    specRetryConsumeAction 5 0 false = SpecConsumeAction.requeue 1 := by decide

/-- C3, amended: when the consumer's message handler fails, the message
is negatively acknowledged with `requeue = false` — dropped after
logging — already on the first failure; no retry counter is read,
incremented or stored (the published message carries only `filePath` and
`timestamp`). -/
theorem c3_failed_handler_dropped (processor : QueueMessage → Except String Unit)
    (m : QueueMessage) (e : String) (h : processor m = Except.error e) :
    consumeCsvQueueOnMessage processor m = ConsumeAction.nack false false := by
  unfold consumeCsvQueueOnMessage
  rw [h]

theorem c3_failed_handler_dropped_witness :
    (fun _ : QueueMessage => (Except.error "boom" : Except String Unit)) ⟨"file.csv", "ts"⟩
        = Except.error "boom" ∧
    consumeCsvQueueOnMessage
        (fun _ : QueueMessage => (Except.error "boom" : Except String Unit))
        ⟨"file.csv", "ts"⟩
      = ConsumeAction.nack false false :=
  ⟨rfl, c3_failed_handler_dropped _ ⟨"file.csv", "ts"⟩ "boom" rfl⟩

/-- C4: when the broker connection is down `sendToCsvQueue` answers
`false` (its catch converts the throw), and whenever publishing answered
`false` — which covers both the unavailable connection and a refused
publish — the orchestrator's result is exactly that of running the
parse/enrich/persist pipeline synchronously on the upload. -/
theorem c4_unavailable_falls_back (b : Broker) (content : String)
    (cache : Option RatesData) (provider : Except Unit RatesData)
    (db : List EnrichedProduct) (ins : InsertOracle) :
    (b.connected = false → sendToCsvQueue b = false) ∧
    (sendToCsvQueue b = false →
      processCSVFromUpload b content cache provider db ins
        = ((processCSVFileFromBuffer content cache provider db ins).1.map
              (fun s => ⟨s.successCount, s.errors.length⟩),
           (processCSVFileFromBuffer content cache provider db ins).2.1)) := by
  constructor
  · intro h
    simp [sendToCsvQueue, sendToCsvQueueBody, h]
  · intro h
    unfold processCSVFromUpload
    cases hc : b.connected with
    | false => simp [waitForConnection, hc]
    | true => simp [waitForConnection, hc, h]

theorem c4_unavailable_falls_back_witness :
    sendToCsvQueue ⟨false, true⟩ = false ∧
    processCSVFromUpload ⟨false, true⟩ c8Content (some snapDefault) (Except.error ())
        [productDefault] insAccept
      = ((processCSVFileFromBuffer c8Content (some snapDefault) (Except.error ())
            [productDefault] insAccept).1.map
            (fun s => ⟨s.successCount, s.errors.length⟩),
         (processCSVFileFromBuffer c8Content (some snapDefault) (Except.error ())
            [productDefault] insAccept).2.1) :=
  ⟨(c4_unavailable_falls_back ⟨false, true⟩ c8Content (some snapDefault)
      (Except.error ()) [productDefault] insAccept).1 rfl,
   (c4_unavailable_falls_back ⟨false, true⟩ c8Content (some snapDefault)
      (Except.error ()) [productDefault] insAccept).2
     ((c4_unavailable_falls_back ⟨false, true⟩ c8Content (some snapDefault)
        (Except.error ()) [productDefault] insAccept).1 rfl)⟩

/-- C5: with a cache miss and a failing rate provider the whole run
rejects with the enrichment error before any row is read: no record is
enriched, no batch result is produced, and the catalog is returned
unchanged — the replace-all delete is never reached. -/
theorem c5_enrichment_failure_is_fatal (content : String)
    (db : List EnrichedProduct) (ins : InsertOracle) :
    processCSVFileWithMetrics content none (Except.error ()) db ins
      = (Except.error PipeError.enrichment, db, []) := rfl

/-- C6: a batch insert failure is caught and the loop proceeds — one
batch result is recorded for every batch — and the inserted count
recorded for batch `k+1` depends only on the datastore's answer for
batch `k+1`: in particular a failure of batch `k` does not reduce it. -/
theorem c6_batch_failure_isolated (products : List EnrichedProduct)
    (ins₁ ins₂ : InsertOracle) (k : Nat)
    (h : ∀ b, ins₁ (k + 1) b = ins₂ (k + 1) b) :
    insertedCountAt (processProductsInBatches products ins₁).2 (k + 1)
        = insertedCountAt (processProductsInBatches products ins₂).2 (k + 1) ∧
    (processProductsInBatches products ins₁).2.length = (toBatches products).length :=
  ⟨runBatchesAux_countAt ins₁ ins₂ (k + 1) h (toBatches products) 1,
   runBatchesAux_len ins₁ (toBatches products) 1⟩

theorem c6_batch_failure_isolated_witness :
    (∀ b, insFailFirst 2 b = insAccept 2 b) ∧
    (insertedCountAt
          (processProductsInBatches (List.replicate 1001 productDefault) insFailFirst).2 2
        = insertedCountAt
            (processProductsInBatches (List.replicate 1001 productDefault) insAccept).2 2 ∧
      (processProductsInBatches (List.replicate 1001 productDefault) insFailFirst).2.length
        = (toBatches (List.replicate 1001 productDefault)).length) :=
  ⟨fun _ => rfl,
   c6_batch_failure_isolated (List.replicate 1001 productDefault)
     insFailFirst insAccept 1 (fun _ => rfl)⟩

/-- C7, counterexample: the code removes only the first `,` (JavaScript
`replace` with a string pattern), so a price with two thousands
separators parses as the prefix before the second comma — `1234` — while
the spec's `stripping … thousands separators` yields `1234567.89`. -/
theorem c7_counterexample :
    parsePriceCell "$1,234,567.89".data = some (mkRat 1234 1) ∧
    parsePriceCellSpec "$1,234,567.89".data = some (mkRat 123456789 100) ∧
    ¬ (mkRat 1234 1 = mkRat 123456789 100) := by decide

/-- C7, amended: price validation removes the first `$` and the first
`,`, trims, and parses the longest numeric prefix: `$1,234.56` parses to
`1234.56`, while `abc` yields no number and the row is recorded as an
invalid-price ValidationError. -/
theorem c7_price_strip_first_separator :
    parsePriceCell "$1,234.56".data = some (mkRat 123456 100) ∧
    parsePriceCell "abc".data = none ∧
    (runRows snapDefault (parseCSVString "name;price;expiration\nPear;abc;02/02/2025")).errors
        = [(1, RowReason.invalidPrice)] ∧
    (runRows snapDefault (parseCSVString "name;price;expiration\nPear;abc;02/02/2025")).successCount
        = 0 := by decide

/-- C8: the §8 scenario — header plus three data rows, `;`-delimited —
resolves with `successCount = 1` and exactly two errors: missing
required fields on data row 2 and an invalid price on data row 3. -/
theorem c8_scenario :
    (processCSVFileWithMetrics c8Content (some snapDefault) (Except.error ())
        [] insAccept).1
      = Except.ok ⟨1, [(2, RowReason.missingFields), (3, RowReason.invalidPrice)]⟩ := by
  decide

/-- C9: the counts a run resolves with are a function of the payload and
the snapshot source alone — two runs over the same content and the same
cache/provider answer, at different wall-clock instants, against
different catalogs and different datastore behaviours, report identical
`successCount` and identical error counts. -/
theorem c9_counts_deterministic (content : String) (cache : Option RatesData)
    (provider : Except Unit RatesData) (db₁ db₂ : List EnrichedProduct)
    (ins₁ ins₂ : InsertOracle) (t0 t1 t2 s0 s1 s2 : Nat) :
    summaryCounts (processCSVFileAt t0 t1 t2 content cache provider db₁ ins₁).summary
      = summaryCounts (processCSVFileAt s0 s1 s2 content cache provider db₂ ins₂).summary := by
  unfold processCSVFileAt processCSVFileWithMetrics
  cases h : getExchangeRates cache provider with
  | error e => simp [h]
  | ok rd =>
    simp only [h]
    by_cases hE :
        (runRows ⟨rd.date, getSelectedCurrencies rd.rates⟩ (parseCSVString content)).results.isEmpty
    · simp [hE]
    · simp [hE]

/-- C10: when the exchange-rate fetch succeeds but no data row
validates, the persistence stage is never invoked — no batch result is
produced and the catalog is returned word-for-word unchanged — while the
run still resolves successfully with `successCount = 0` and the
collected errors. -/
theorem c10_no_valid_rows_leaves_catalog (content : String)
    (cache : Option RatesData) (provider : Except Unit RatesData)
    (rd : RatesData) (db : List EnrichedProduct) (ins : InsertOracle)
    (hr : getExchangeRates cache provider = Except.ok rd)
    (hv : ∀ r ∈ parseCSVString content, isValidRow r = false) :
    (processCSVFileWithMetrics content cache provider db ins).2.1 = db ∧
    (processCSVFileWithMetrics content cache provider db ins).2.2 = [] ∧
    ∃ s, (processCSVFileWithMetrics content cache provider db ins).1 = Except.ok s ∧
      s.successCount = 0 := by
  have hres := foldRows_noValid ⟨rd.date, getSelectedCurrencies rd.rates⟩
    (parseCSVString content) initialRunState hv
  unfold processCSVFileWithMetrics
  rw [hr]
  have h1 : (runRows ⟨rd.date, getSelectedCurrencies rd.rates⟩
      (parseCSVString content)).results = [] := hres.1
  have h2 : (runRows ⟨rd.date, getSelectedCurrencies rd.rates⟩
      (parseCSVString content)).successCount = 0 := hres.2
  simp [h1, h2]

theorem c10_no_valid_rows_leaves_catalog_witness :
    getExchangeRates (some snapDefault) (Except.error ()) = Except.ok snapDefault ∧
    (∀ r ∈ parseCSVString allInvalidContent, isValidRow r = false) ∧
    ((processCSVFileWithMetrics allInvalidContent (some snapDefault) (Except.error ())
          [productDefault] insAccept).2.1 = [productDefault] ∧
      (processCSVFileWithMetrics allInvalidContent (some snapDefault) (Except.error ())
          [productDefault] insAccept).2.2 = [] ∧
      ∃ s, (processCSVFileWithMetrics allInvalidContent (some snapDefault) (Except.error ())
          [productDefault] insAccept).1 = Except.ok s ∧ s.successCount = 0) :=
  ⟨rfl, by decide,
   c10_no_valid_rows_leaves_catalog allInvalidContent (some snapDefault)
     (Except.error ()) snapDefault [productDefault] insAccept rfl (by decide)⟩

end FluxStore
